import Mathlib

/-!
Verification development for the CortexVision classification-matching pipeline
(`app.py`, `snowflake_conn.py`).  The Snowflake metadata store is modelled as
explicit lists of rows, SQL statements as pure functions on that state, and the
external Cortex services (text embedding, image hashing) as deterministic
functions.  Machine floats (the fixed confidence scores 1.0 / 0.95 / 0.98 and
cosine-similarity scores) are modelled as rationals.
-/

namespace CortexVision

/-! ### Characters, digits and decimal rendering

Helpers for modelling Python `str`/Snowflake string functions.  All string
scanning is done on the underlying character lists (`String.data`), which keeps
every definition kernel-reducible.
-/

/-- Numeric value of a decimal digit character (models `int(ch)` for `'0'..'9'`). -/
def digitVal (ch : Char) : Nat := ch.toNat - 48

/-- Decimal rendering of a natural number, fuel-indexed so the recursion is
structural.  `natDigitsAux fuel n` is the digit list of `n` whenever `n < fuel`. -/
def natDigitsAux : Nat → Nat → List Char
  | 0, _ => []
  | fuel+1, n =>
    if n < 10 then [Nat.digitChar n]
    else natDigitsAux fuel (n / 10) ++ [Nat.digitChar (n % 10)]

/-- Decimal digit list of a natural number (models Python `str(n)` for `n : int ≥ 0`). -/
def natDigits (n : Nat) : List Char := natDigitsAux (n + 1) n

/-- Numeric value of a decimal digit string (left fold, most significant first). -/
def digitsVal (cs : List Char) : Nat := cs.foldl (fun acc ch => acc * 10 + digitVal ch) 0

/-- The class identifier `c<N>` generated for numeric suffix `N`
(models the f-string `f"c{next_id_num}"` in `get_next_class_id`). -/
def mkClassId (n : Nat) : String := ⟨'c' :: natDigits n⟩

/-- ASCII uppercase of one character (models `str.upper` on the ASCII range). -/
def upChar (ch : Char) : Char :=
  if 'a' ≤ ch ∧ ch ≤ 'z' then Char.ofNat (ch.toNat - 32) else ch

/-- ASCII uppercase of a string (models `str(candidate).upper()` in `app.py`). -/
def upStr (s : String) : String := ⟨s.data.map upChar⟩

/-- Substring test (models Python `sub in s`). -/
def containsSeq (sub s : String) : Bool :=
  s.data.tails.any (fun t => List.isPrefixOf sub.data t)

/-- Suffix test (models the SQL pattern `LIKE '%<sub>'`, i.e. `FILE_PATH` ending
in `sub`). -/
def strEndsWith (sub s : String) : Bool := List.isSuffixOf sub.data s.data

/-- Models the SQL predicate `STARTSWITH(CLASS_ID, 'c')` (case sensitive). -/
def sqlStartsWithC (s : String) : Bool :=
  match s.data with
  | [] => false
  | ch :: _ => ch = 'c'

/-- Models the SQL expression `REPLACE(CLASS_ID, 'c', '')`: every occurrence of
the character `'c'` is removed. -/
def sqlReplaceC (s : String) : String := ⟨s.data.filter (fun ch => ch ≠ 'c')⟩

/-- Models `CAST(s AS INTEGER)` on the non-negative decimal strings produced by
the id scheme: succeeds exactly on non-empty all-digit strings, and a failed
cast aborts the enclosing query (hence `Option`). -/
def sqlCastInt (s : String) : Option Nat :=
  if s.data ≠ [] ∧ s.data.all Char.isDigit then some (digitsVal s.data) else none

/-! ### Data model

The four logical tables of the metadata store
(`IMAGE_METADATA`, `CLASS_EMBEDDINGS`, `AI_MODELS`, `MODEL_CLASSES`). -/

/-- One row of `VISIONDB.HACKATHON_SCHEMA.IMAGE_METADATA`.  `fileHash` is the
optional `FILE_HASH` column (absent for rows inserted via the reduced
3-column schema). -/
structure MetaRow where
  imageId : String
  filePath : String
  caption : String
  fileHash : Option String
deriving DecidableEq, Repr

/-- One row of `VISIONDB.HACKATHON_SCHEMA.CLASS_EMBEDDINGS`.  The vector is
kept abstract as the token produced by `embedText768`; `none` models a NULL
`TEXT_VECTOR`. -/
structure CERow where
  classId : String
  className : String
  textVector : Option String
deriving DecidableEq, Repr

/-- The relational state: `AI_MODELS`, `MODEL_CLASSES`, `IMAGE_METADATA` and
`CLASS_EMBEDDINGS`, each as its list of rows in insertion order. -/
structure DB where
  aiModels : List String
  modelClasses : List (String × String)
  imageMetadata : List MetaRow
  classEmbeddings : List CERow
deriving DecidableEq, Repr

/-- The empty metadata store. -/
def emptyDB : DB := ⟨[], [], [], []⟩

/-- A local file: basename plus raw content bytes (abstracted as a string). -/
structure FileEntry where
  name : String
  content : String
deriving DecidableEq, Repr

/-- Modelled external service: `SNOWFLAKE.CORTEX.EMBED_TEXT_768` is a
deterministic function of the model name and the text. -/
def embedText768 (model text : String) : String := model ++ "#" ++ text

/-- Modelled external primitive: `hashlib.sha256(bytes).hexdigest()` as a
deterministic digest of the content. -/
def sha256Hex (content : String) : String := "sha256#" ++ content

/-- Filename without its extension (models `os.path.splitext(basename)[0]`,
including the rule that a lone leading dot is not an extension separator). -/
def stripExt (name : String) : String :=
  match name.data.reverse.dropWhile (fun ch => ch ≠ '.') with
  | [] => name
  | _ :: rest => if rest = [] then name else ⟨rest.reverse⟩

/-! ### Metadata-store operations (`snowflake_conn.py`) -/

/-- The `IMAGE_METADATA` row built for one uploaded file in
`insert_image_metadata_from_local_dir`: `IMAGE_ID` is the basename without
extension, `FILE_PATH` is `f"{stage_target}/{basename}"`, `CAPTION` defaults to
the image id, and `FILE_HASH` is the SHA-256 of the content. -/
def metaRowFor (stage_target : String) (caption : Option String) (f : FileEntry) : MetaRow :=
  { imageId := stripExt f.name
    filePath := stage_target ++ "/" ++ f.name
    caption := caption.getD (stripExt f.name)
    fileHash := some (sha256Hex f.content) }

/-- The batch of metadata rows for all top-level files of a directory. -/
def metadataRows (files : List FileEntry) (stage_target : String) (caption : Option String) :
    List MetaRow :=
  files.map (metaRowFor stage_target caption)

/-- The reduced 3-column insert `(IMAGE_ID, FILE_PATH, CAPTION)` used when the
richer insert including `FILE_HASH` fails for a row. -/
def reducedRow (r : MetaRow) : MetaRow := { r with fileHash := none }

/-- Per-row best-effort insertion loop of
`insert_image_metadata_from_local_dir`.  `richFails r` models the 4-column
insert of `r` raising, `reducedFails r` the 3-column retry raising as well;
a row whose both attempts fail re-raises, which aborts (and rolls back) the
whole uncommitted batch. -/
def processMetaRows (richFails reducedFails : MetaRow → Bool) :
    List MetaRow → Except Unit (List MetaRow)
  | [] => .ok []
  | r :: rs =>
    if richFails r = false then
      (processMetaRows richFails reducedFails rs).map (fun t => r :: t)
    else if reducedFails r = false then
      (processMetaRows richFails reducedFails rs).map (fun t => reducedRow r :: t)
    else .error ()

/-- `CustomSnowflake.insert_image_metadata_from_local_dir`: inserts one row per
top-level file of the source directory and commits, returning the attempted
insert count.  Returns `ok (db, 0)` untouched when the directory holds no
files, and `error` when some row fails both insert shapes. -/
def insert_image_metadata_from_local_dir (richFails reducedFails : MetaRow → Bool)
    (db : DB) (files : List FileEntry) (stage_target : String) (caption : Option String) :
    Except Unit (DB × Nat) :=
  if files = [] then .ok (db, 0)
  else
    (processMetaRows richFails reducedFails (metadataRows files stage_target caption)).map
      (fun inserted =>
        ({ db with imageMetadata := db.imageMetadata ++ inserted },
         (metadataRows files stage_target caption).length))

/-- The count returned by `SELECT COUNT(*) FROM AI_MODELS WHERE MODEL_NAME = %s`. -/
def countModel (db : DB) (m : String) : Nat :=
  (db.aiModels.filter (fun x => x == m)).length

/-- `CustomSnowflake.add_model`: insert the model name if absent, else no-op. -/
def add_model (db : DB) (model_name : String) : DB :=
  if countModel db model_name = 0 then
    { db with aiModels := db.aiModels ++ [model_name] }
  else db

/-- The count returned by
`SELECT COUNT(*) FROM MODEL_CLASSES WHERE MODEL_NAME = %s AND CLASS_NAME = %s`. -/
def countModelClass (db : DB) (m c : String) : Nat :=
  (db.modelClasses.filter (fun mc => mc.1 == m && mc.2 == c)).length

/-- `CustomSnowflake.add_class_to_model`: insert the mapping if absent, else no-op. -/
def add_class_to_model (db : DB) (model_name class_name : String) : DB :=
  if countModelClass db model_name class_name = 0 then
    { db with modelClasses := db.modelClasses ++ [(model_name, class_name)] }
  else db

/-- The count returned by
`SELECT COUNT(*) FROM CLASS_EMBEDDINGS WHERE CLASS_NAME = %s`. -/
def countClassEmbedding (db : DB) (c : String) : Nat :=
  (db.classEmbeddings.filter (fun ce => ce.className == c)).length

/-- `CustomSnowflake.add_class_embedding`: skip when the class name already has
an embedding row, otherwise insert `(CLASS_ID, CLASS_NAME,
EMBED_TEXT_768('snowflake-arctic-embed-m', CLASS_NAME))`. -/
def add_class_embedding (db : DB) (class_id class_name : String) : DB :=
  if 0 < countClassEmbedding db class_name then db
  else
    { db with
      classEmbeddings := db.classEmbeddings ++
        [⟨class_id, class_name, some (embedText768 "snowflake-arctic-embed-m" class_name)⟩] }

/-- `CustomSnowflake.get_next_class_id` over the current `CLASS_ID` column:
`SELECT NVL(MAX(CAST(REPLACE(CLASS_ID, 'c', '') AS INTEGER)), 0) … WHERE
STARTSWITH(CLASS_ID, 'c')`, then `f"c{max + 1}"`.  A cast failure aborts the
query, modelled by `none`. -/
def get_next_class_id (classIds : List String) : Option String :=
  let cids := classIds.filter sqlStartsWithC
  let parsed := cids.map (fun cid => sqlCastInt (sqlReplaceC cid))
  if parsed.all Option.isSome then
    some (mkClassId ((parsed.filterMap id).foldl Nat.max 0 + 1))
  else none

/-! ### Teaching orchestration (`app.py`) -/

/-- The `_safe` name normalizer of `teach_workflow` / `teach`: keep
alphanumerics, space, hyphen and underscore, strip surrounding spaces, then
replace spaces by underscores. -/
def safeName (name : String) : String :=
  let kept := name.data.filter (fun ch => ch.isAlphanum || ch == ' ' || ch == '-' || ch == '_')
  let stripped := ((kept.dropWhile (fun ch => ch = ' ')).reverse.dropWhile (fun ch => ch = ' ')).reverse
  ⟨stripped.map (fun ch => if ch = ' ' then '_' else ch)⟩

/-- Relational end state of the synchronous `teach_workflow` in `app.py`
(lines 114–150), for a source directory containing `files`.  The per-row
insert oracles are `false`: upload and metadata insertion succeed.
`embed_step_fails` models `add_class_embedding` raising; since
`insert_image_metadata_from_local_dir` commits internally, the subsequent
rollback leaves the model row and metadata rows in place.  A
`get_next_class_id` failure raises before anything is committed, so the
rollback restores the initial state. -/
def teach_workflow (db : DB) (model_name class_name : String) (files : List FileEntry)
    (stage_name : String) (embed_step_fails : Bool) : DB :=
  let model_safe := safeName model_name
  let class_safe := safeName class_name
  let db1 := add_model db model_name
  match get_next_class_id (db1.classEmbeddings.map CERow.classId) with
  | none => db
  | some class_id =>
    let stage_target := stage_name ++ "/" ++ model_safe ++ "/" ++ class_safe
    match insert_image_metadata_from_local_dir (fun _ => false) (fun _ => false)
        db1 files stage_target (some class_name) with
    | .error _ => db
    | .ok (db2, _inserted) =>
      if embed_step_fails then db2
      else
        let db3 := add_class_embedding db2 class_id class_name
        add_class_to_model db3 model_name class_name

/-- Relational end state of the `_background_train` closure in the `teach`
route of `app.py` (lines 240–268), transcribed separately from
`teach_workflow`; the background thread opens its own connection and performs
the same store writes. -/
def background_train (db : DB) (model_name class_name : String) (files : List FileEntry)
    (stage_name : String) (embed_step_fails : Bool) : DB :=
  let model_safe := safeName model_name
  let class_safe := safeName class_name
  let db1 := add_model db model_name
  match get_next_class_id (db1.classEmbeddings.map CERow.classId) with
  | none => db
  | some class_id =>
    let stage_target := stage_name ++ "/" ++ model_safe ++ "/" ++ class_safe
    match insert_image_metadata_from_local_dir (fun _ => false) (fun _ => false)
        db1 files stage_target (some class_name) with
    | .error _ => db
    | .ok (db2, _inserted) =>
      if embed_step_fails then db2
      else
        let db3 := add_class_embedding db2 class_id class_name
        add_class_to_model db3 model_name class_name

/-- Observable side effects of the `/teach` route against the acquisition
provider and the storage uploader. -/
inductive TeachAction where
  | acquire
  | upload
deriving DecidableEq, Repr

/-- Outcome of the `/teach` route: a duplicate-class rejection, or background
training started with the resulting store state. -/
inductive TeachOutcome where
  | duplicateClass
  | started (db : DB)
deriving DecidableEq, Repr

/-- The `/teach` route of `app.py` on its scraping path: first the duplicate
check `SELECT COUNT(*) FROM MODEL_CLASSES WHERE MODEL_NAME = … AND CLASS_NAME
= …`, failing fast on a positive count before any scraping or upload; then
scraping (acquire) followed by the background training (which uploads). -/
def teach (db : DB) (model_name class_name : String) (files : List FileEntry)
    (stage_name : String) : TeachOutcome × List TeachAction :=
  if 0 < countModelClass db model_name class_name then
    (.duplicateClass, [])
  else
    (.started (background_train db model_name class_name files stage_name false),
     [.acquire, .upload])

/-! ### Classification matcher (`run_classification_on_uploaded` in `app.py`) -/

/-- Error states surfaced by the matcher: the fallback ladder exhausted (with
the discovered Cortex function names), or the vector query returning zero rows
(with the diagnostic counts of embedding rows and of rows with a non-null
vector). -/
inductive ClassifyError where
  | noMatch (discovered : List String)
  | noRows (embeddingsCount : Nat) (embeddingsWithVector : Nat)
deriving DecidableEq, Repr

/-- Image-embedding capability probe: the first function name (from `SHOW
FUNCTIONS IN SCHEMA SNOWFLAKE.CORTEX`) whose uppercase form contains both
`EMBED` and `IMAGE`. -/
def findImgFn (fn_names : List String) : Option String :=
  fn_names.find? (fun candidate =>
    containsSeq "EMBED" (upStr candidate) && containsSeq "IMAGE" (upStr candidate))

/-- The caption accepted by one fallback tier: the first returned row's
caption, provided it is truthy (the code tests `rows and rows[0] and
rows[0][0]`, so an empty first caption falls through to the next tier). -/
def firstCaption (caps : List String) : Option String :=
  match caps with
  | [] => none
  | cap :: _ => if cap = "" then none else some cap

/-- Result of one fallback-tier query `SELECT CAPTION FROM IMAGE_METADATA
WHERE <p> LIMIT 1`, filtered through the truthiness test. -/
def tierCaption (db : DB) (p : MetaRow → Bool) : Option String :=
  firstCaption ((db.imageMetadata.filter p).map MetaRow.caption)

/-- Candidate rows of the vector classification query: all of
`CLASS_EMBEDDINGS`, or — when a model filter is supplied — the inner join
`JOIN MODEL_CLASSES mc ON ce.CLASS_NAME = mc.CLASS_NAME AND mc.MODEL_NAME =
'<model>'`. -/
def vectorCandidates (db : DB) (model_name : Option String) : List CERow :=
  match model_name with
  | none => db.classEmbeddings
  | some m =>
    db.classEmbeddings.flatMap (fun ce =>
      (db.modelClasses.filter (fun mc => mc.2 == ce.className && mc.1 == m)).map (fun _ => ce))

/-- `run_classification_on_uploaded` of `app.py`.  `fn_names` is the function
list discovered in `SNOWFLAKE.CORTEX`; `sim` is the external
`VECTOR_COSINE_SIMILARITY` of the uploaded image's vector against a stored
row, modelled as a rational; `hash_query_fails` models the content-hash tier's
query raising (e.g. no `FILE_HASH` column), which the code swallows with
`except: pass`.  With no image-embedding function the three-tier fallback
ladder runs in source order (path 1.0, basename 0.95, hash 0.98); with one,
the top-5 similarity query runs, `ORDER BY similarity_score DESC LIMIT 5`
(modelled by a stable sort), and zero returned rows raise the diagnostic
error. -/
def run_classification_on_uploaded (db : DB) (fn_names : List String)
    (hash_query_fails : Bool) (sim : CERow → ℚ) (stage_name_detect : String)
    (query : FileEntry) (model_name : Option String) :
    Except ClassifyError (List (String × ℚ)) :=
  let stage_file := stage_name_detect ++ "/" ++ query.name
  match findImgFn fn_names with
  | none =>
    match tierCaption db (fun r => r.filePath == stage_file) with
    | some caption => .ok [(caption, 1.0)]
    | none =>
      match tierCaption db (fun r => strEndsWith ("/" ++ query.name) r.filePath) with
      | some caption => .ok [(caption, 0.95)]
      | none =>
        if hash_query_fails then .error (.noMatch fn_names)
        else
          match tierCaption db (fun r => r.fileHash == some (sha256Hex query.content)) with
          | some caption => .ok [(caption, 0.98)]
          | none => .error (.noMatch fn_names)
  | some _img_fn =>
    let scored := (vectorCandidates db model_name).map (fun ce => (ce.className, sim ce))
    let top := (scored.insertionSort (fun a b => b.2 ≤ a.2)).take 5
    if top.isEmpty then
      .error (.noRows db.classEmbeddings.length
        ((db.classEmbeddings.filter (fun ce => ce.textVector.isSome)).length))
    else .ok top

/-! ### Storage upload (`CustomSnowflake.put_file`) -/

/-- One entry of a local directory listing: a regular file or a subdirectory
with its own entries. -/
inductive FsEntry where
  | file (name content : String)
  | subdir (name : String) (entries : List FsEntry)

/-- The files selected by `put_file` for a directory argument:
`os.listdir` filtered by `os.path.isfile`, i.e. top-level regular files only
(no recursion into subdirectories). -/
def topLevelFiles (entries : List FsEntry) : List FileEntry :=
  entries.filterMap (fun e =>
    match e with
    | .file name content => some ⟨name, content⟩
    | .subdir _ _ => none)

/-- Aggregated result of `put_file` (the `uploaded_files` key of the returned
dictionary). -/
structure PutResult where
  uploaded_files : List FileEntry
deriving DecidableEq, Repr

/-- `CustomSnowflake.put_file` on a directory, represented by its listing:
raises `ValueError("No files found in directory: …")` when the directory
contains no top-level regular file, otherwise PUTs each top-level file and
returns them as `uploaded_files`. -/
def put_file (entries : List FsEntry) : Except String PutResult :=
  if topLevelFiles entries = [] then .error "No files found in directory"
  else .ok { uploaded_files := topLevelFiles entries }

/-- The descending-score order used to model `ORDER BY similarity_score DESC`
is total and transitive (needed for sortedness of the stable sort). -/
instance instScoreDescTotal : IsTotal (String × ℚ) (fun a b => b.2 ≤ a.2) :=
  ⟨fun a b => le_total b.2 a.2⟩

instance instScoreDescTrans : IsTrans (String × ℚ) (fun a b => b.2 ≤ a.2) :=
  ⟨fun _ _ _ hab hbc => le_trans hbc hab⟩

/-! ### Concrete states used by witnesses and counterexamples -/

/-- A store holding one taught class "Cat" with one ingested image. -/
def dbDemo : DB :=
  { aiModels := ["M"]
    modelClasses := [("M", "Cat")]
    imageMetadata := [⟨"img1", "@S/M/Cat/img1.jpg", "Cat", some (sha256Hex "bytes1")⟩]
    classEmbeddings := [⟨"c1", "Cat", some (embedText768 "snowflake-arctic-embed-m" "Cat")⟩] }

/-- A store with two classes of one model, used to exhibit a similarity tie. -/
def dbTie : DB :=
  { aiModels := ["M"]
    modelClasses := [("M", "A"), ("M", "B")]
    imageMetadata := []
    classEmbeddings := [⟨"c1", "A", some "v"⟩, ⟨"c2", "B", some "v"⟩] }

/-- A store with one embedding row but no model-class mapping, so a filtered
vector query returns zero rows. -/
def dbNoJoin : DB :=
  { aiModels := []
    modelClasses := []
    imageMetadata := []
    classEmbeddings := [⟨"c1", "Cat", some "v"⟩] }

/-- The single-file batch of the retry scenario. -/
def filesDemo : List FileEntry := [⟨"img1.jpg", "bytes1"⟩]

/-- End state of a teach of ("M", "Cat") that failed right before
`add_class_embedding` (after the metadata insert committed), followed by a
full re-run of the same teach. -/
def retryDB : DB :=
  teach_workflow (teach_workflow emptyDB "M" "Cat" filesDemo "@S" true) "M" "Cat" filesDemo "@S" false

/-! ### Helper lemmas: decimal rendering and parsing -/

theorem digitVal_digitChar {d : Nat} (h : d < 10) : digitVal (Nat.digitChar d) = d := by
  interval_cases d <;> decide

theorem isDigit_digitChar {d : Nat} (h : d < 10) : (Nat.digitChar d).isDigit = true := by
  interval_cases d <;> decide

theorem digitsVal_append_singleton (l : List Char) (ch : Char) :
    digitsVal (l ++ [ch]) = digitsVal l * 10 + digitVal ch := by
  simp [digitsVal, List.foldl_append]

theorem natDigitsAux_spec :
    ∀ fuel n, n < fuel →
      digitsVal (natDigitsAux fuel n) = n ∧ natDigitsAux fuel n ≠ [] ∧
        ∀ ch ∈ natDigitsAux fuel n, ch.isDigit = true := by
  intro fuel
  induction fuel with
  | zero => intro n h; omega
  | succ fuel ih =>
    intro n h
    by_cases h10 : n < 10
    · refine ⟨?_, ?_, ?_⟩ <;> simp [natDigitsAux, h10, digitsVal, digitVal_digitChar h10,
        isDigit_digitChar h10]
    · have hdiv : n / 10 < fuel := by
        have := Nat.div_lt_self (by omega : 0 < n) (by omega : 1 < 10)
        omega
      obtain ⟨hval, hne, hdig⟩ := ih (n / 10) hdiv
      refine ⟨?_, ?_, ?_⟩
      · simp only [natDigitsAux, if_neg h10]
        rw [digitsVal_append_singleton, hval, digitVal_digitChar (Nat.mod_lt _ (by omega))]
        omega
      · simp [natDigitsAux, h10]
      · intro ch hch
        simp only [natDigitsAux, if_neg h10, List.mem_append, List.mem_singleton] at hch
        rcases hch with hch | hch
        · exact hdig ch hch
        · subst hch; exact isDigit_digitChar (Nat.mod_lt _ (by omega))

theorem digitsVal_natDigits (n : Nat) : digitsVal (natDigits n) = n :=
  (natDigitsAux_spec (n+1) n (by omega)).1

theorem natDigits_ne_nil (n : Nat) : natDigits n ≠ [] :=
  (natDigitsAux_spec (n+1) n (by omega)).2.1

theorem natDigits_isDigit (n : Nat) : ∀ ch ∈ natDigits n, ch.isDigit = true :=
  (natDigitsAux_spec (n+1) n (by omega)).2.2

theorem isDigit_ne_c {ch : Char} (h : ch.isDigit = true) : ch ≠ 'c' := by
  intro heq; subst heq; simp [Char.isDigit] at h

theorem le_foldl_max (l : List Nat) (a : Nat) : a ≤ l.foldl Nat.max a := by
  induction l generalizing a with
  | nil => simp
  | cons x xs ih => exact le_trans (Nat.le_max_left a x) (ih (Nat.max a x))

theorem mem_le_foldl_max {n : Nat} {l : List Nat} (h : n ∈ l) (a : Nat) :
    n ≤ l.foldl Nat.max a := by
  induction l generalizing a with
  | nil => cases h
  | cons x xs ih =>
    rcases List.mem_cons.mp h with rfl | hmem
    · exact le_trans (Nat.le_max_right a n) (le_foldl_max xs (Nat.max a n))
    · exact ih hmem (Nat.max a x)

theorem sqlStartsWithC_mkClassId (n : Nat) : sqlStartsWithC (mkClassId n) = true := by
  simp [sqlStartsWithC, mkClassId]

theorem sqlReplaceC_mkClassId (n : Nat) : sqlReplaceC (mkClassId n) = ⟨natDigits n⟩ := by
  simp only [sqlReplaceC, mkClassId]
  congr 1
  rw [List.filter_cons]
  simp only [decide_eq_true_eq]
  rw [if_neg (by simp)]
  exact List.filter_eq_self.mpr (fun ch hch => by
    simpa using isDigit_ne_c (natDigits_isDigit n ch hch))

theorem sqlCastInt_natDigits (n : Nat) : sqlCastInt ⟨natDigits n⟩ = some n := by
  rw [sqlCastInt]
  rw [if_pos]
  · simp [digitsVal_natDigits]
  · exact ⟨natDigits_ne_nil n, List.all_eq_true.mpr (fun ch hch => by
      simpa using natDigits_isDigit n ch hch)⟩

/-- On a table whose class identifiers were all generated by the `c<N>`
scheme, the allocation query succeeds and returns `c<max N + 1>`. -/
theorem get_next_class_id_generated (nums : List Nat) :
    get_next_class_id (nums.map mkClassId) = some (mkClassId (nums.foldl Nat.max 0 + 1)) := by
  have hfilter : (nums.map mkClassId).filter sqlStartsWithC = nums.map mkClassId :=
    List.filter_eq_self.mpr (fun id hid => by
      obtain ⟨n, _, rfl⟩ := List.mem_map.mp hid
      exact sqlStartsWithC_mkClassId n)
  have hmap : (nums.map mkClassId).map (fun cid => sqlCastInt (sqlReplaceC cid))
      = nums.map some := by
    rw [List.map_map]
    exact List.map_congr_left (fun n _ => by
      simp [Function.comp, sqlReplaceC_mkClassId, sqlCastInt_natDigits])
  rw [get_next_class_id]
  simp only [hfilter, hmap]
  rw [if_pos]
  · congr 2
    simp [List.filterMap_map]
  · exact List.all_eq_true.mpr (fun x hx => by
      obtain ⟨n, _, rfl⟩ := List.mem_map.mp hx; rfl)

/-! ### Helper lemmas: metadata insertion -/

theorem processMetaRows_no_failures (rows : List MetaRow) :
    processMetaRows (fun _ => false) (fun _ => false) rows = .ok rows := by
  induction rows with
  | nil => rfl
  | cons r rs ih => simp [processMetaRows, ih, Except.map]

theorem insert_metadata_no_failures (db : DB) (files : List FileEntry)
    (stage_target : String) (caption : Option String) :
    insert_image_metadata_from_local_dir (fun _ => false) (fun _ => false)
        db files stage_target caption
      = .ok ({ db with imageMetadata := db.imageMetadata ++ metadataRows files stage_target caption },
             files.length) := by
  rw [insert_image_metadata_from_local_dir]
  by_cases h : files = []
  · subst h; simp [metadataRows]
  · rw [if_neg h, processMetaRows_no_failures]
    simp [Except.map, metadataRows]

theorem processMetaRows_ok {richFails reducedFails : MetaRow → Bool}
    {rows out : List MetaRow}
    (h : processMetaRows richFails reducedFails rows = .ok out) :
    out = rows.map (fun r => if richFails r then reducedRow r else r) := by
  induction rows generalizing out with
  | nil => cases h; rfl
  | cons r rs ih =>
    rw [processMetaRows] at h
    by_cases h1 : richFails r = false
    · rw [if_pos h1] at h
      cases hrec : processMetaRows richFails reducedFails rs with
      | error e => rw [hrec] at h; cases h
      | ok t =>
        rw [hrec] at h
        simp only [Except.map] at h
        cases h
        simp [h1, ih hrec]
    · rw [if_neg h1] at h
      have h1' : richFails r = true := by revert h1; cases richFails r <;> simp
      by_cases h2 : reducedFails r = false
      · rw [if_pos h2] at h
        cases hrec : processMetaRows richFails reducedFails rs with
        | error e => rw [hrec] at h; cases h
        | ok t =>
          rw [hrec] at h
          simp only [Except.map] at h
          cases h
          simp [h1', ih hrec]
      · rw [if_neg h2] at h
        cases h

theorem processMetaRows_error_iff {richFails reducedFails : MetaRow → Bool}
    {rows : List MetaRow} :
    processMetaRows richFails reducedFails rows = .error () ↔
      ∃ r ∈ rows, richFails r = true ∧ reducedFails r = true := by
  induction rows with
  | nil => simp [processMetaRows]
  | cons r rs ih =>
    rw [processMetaRows]
    by_cases h1 : richFails r = false
    · rw [if_pos h1]
      cases hrec : processMetaRows richFails reducedFails rs with
      | error e =>
        cases e
        constructor
        · intro _
          obtain ⟨x, hx, hrf, hrd⟩ := ih.mp hrec
          exact ⟨x, List.mem_cons_of_mem r hx, hrf, hrd⟩
        · intro _
          rfl
      | ok t =>
        constructor
        · intro h
          simp [Except.map] at h
        · rintro ⟨x, hx, hrf, hrd⟩
          rcases List.mem_cons.mp hx with rfl | hmem
          · rw [h1] at hrf; cases hrf
          · have himp := ih.mpr ⟨x, hmem, hrf, hrd⟩
            rw [hrec] at himp
            simp at himp
    · rw [if_neg h1]
      have h1' : richFails r = true := by revert h1; cases richFails r <;> simp
      by_cases h2 : reducedFails r = false
      · rw [if_pos h2]
        cases hrec : processMetaRows richFails reducedFails rs with
        | error e =>
          cases e
          constructor
          · intro _
            obtain ⟨x, hx, hrf, hrd⟩ := ih.mp hrec
            exact ⟨x, List.mem_cons_of_mem r hx, hrf, hrd⟩
          · intro _
            rfl
        | ok t =>
          constructor
          · intro h
            simp [Except.map] at h
          · rintro ⟨x, hx, hrf, hrd⟩
            rcases List.mem_cons.mp hx with rfl | hmem
            · rw [h2] at hrd; cases hrd
            · have himp := ih.mpr ⟨x, hmem, hrf, hrd⟩
              rw [hrec] at himp
              simp at himp
      · rw [if_neg h2]
        have h2' : reducedFails r = true := by revert h2; cases reducedFails r <;> simp
        constructor
        · intro _
          exact ⟨r, List.mem_cons_self r rs, h1', h2'⟩
        · intro _
          rfl

/-! ### Helper lemmas: store operations -/

theorem add_model_modelClasses (db : DB) (m : String) :
    (add_model db m).modelClasses = db.modelClasses := by
  unfold add_model; split <;> rfl

theorem add_model_classEmbeddings (db : DB) (m : String) :
    (add_model db m).classEmbeddings = db.classEmbeddings := by
  unfold add_model; split <;> rfl

theorem add_class_embedding_modelClasses (db : DB) (class_id class_name : String) :
    (add_class_embedding db class_id class_name).modelClasses = db.modelClasses := by
  unfold add_class_embedding; split <;> rfl

theorem countModelClass_add_class_to_model_pos (db : DB) (m c : String) :
    0 < countModelClass (add_class_to_model db m c) m c := by
  unfold add_class_to_model
  split
  · unfold countModelClass
    simp [List.filter_append]
  · rename_i h
    omega

/-! ### Helper lemmas: fallback tiers -/

theorem tierCaption_eq_some {db : DB} {p : MetaRow → Bool} {r : MetaRow}
    (hfind : db.imageMetadata.find? p = some r) (hcap : r.caption ≠ "") :
    tierCaption db p = some r.caption := by
  unfold tierCaption
  have hhead : (db.imageMetadata.filter p).head? = some r := by
    rw [List.filter_head?]; exact hfind
  cases hfilter : db.imageMetadata.filter p with
  | nil => rw [hfilter] at hhead; cases hhead
  | cons x t =>
    rw [hfilter] at hhead
    injection hhead with hx
    subst hx
    simp [firstCaption, hcap]


/-! ### Claim theorems -/


/-- C3: on any table whose identifiers were generated by the scheme, the next
class identifier is `c<N>` with N one plus the maximum numeric suffix, that
suffix strictly exceeds every existing one, and the empty table yields `c1`. -/
theorem next_class_id_monotonic (nums : List Nat) :
    get_next_class_id (nums.map mkClassId) = some (mkClassId (nums.foldl Nat.max 0 + 1)) ∧
    (∀ n ∈ nums, n < nums.foldl Nat.max 0 + 1) ∧
    get_next_class_id [] = some (mkClassId 1) ∧ mkClassId 1 = "c1" := by
  refine ⟨get_next_class_id_generated nums, ?_, by decide, by decide⟩
  intro n hn
  have := mem_le_foldl_max hn 0
  omega

theorem next_class_id_monotonic_witness :
    get_next_class_id ["c3", "c1"] = some "c4" := by
  have h := (next_class_id_monotonic [3, 1]).1
  have e1 : ([3, 1].map mkClassId) = ["c3", "c1"] := by decide
  have e2 : mkClassId ([3, 1].foldl Nat.max 0 + 1) = "c4" := by decide
  rw [e1, e2] at h
  exact h

/-- C7: the synchronous and the background teach paths perform the same store
writes and produce identical end states. -/
theorem teach_sync_async_same_state (db : DB) (model_name class_name : String)
    (files : List FileEntry) (stage_name : String) (embed_step_fails : Bool) :
    teach_workflow db model_name class_name files stage_name embed_step_fails =
      background_train db model_name class_name files stage_name embed_step_fails := rfl

/-- C10: put_file on a directory with no top-level files raises; on success it
uploads exactly the top-level regular files (never files inside subdirectories). -/
theorem put_file_top_level_only (entries : List FsEntry) :
    (topLevelFiles entries = [] → put_file entries = .error "No files found in directory") ∧
    (∀ res, put_file entries = .ok res →
      res.uploaded_files = topLevelFiles entries ∧
      ∀ f ∈ res.uploaded_files, FsEntry.file f.name f.content ∈ entries) := by
  constructor
  · intro h; simp [put_file, h]
  · intro res hres
    rw [put_file] at hres
    by_cases h : topLevelFiles entries = []
    · rw [if_pos h] at hres; cases hres
    · rw [if_neg h] at hres
      injection hres with hres
      subst hres
      refine ⟨rfl, ?_⟩
      intro f hf
      obtain ⟨e, he, hge⟩ := List.mem_filterMap.mp hf
      cases e with
      | file n ct =>
        simp only [Option.some.injEq] at hge
        cases hge
        exact he
      | subdir n es => cases hge

theorem put_file_top_level_only_witness :
    put_file [FsEntry.subdir "d" [FsEntry.file "x.jpg" "y"]]
        = .error "No files found in directory" ∧
    (PutResult.mk [⟨"a.jpg", "b"⟩]).uploaded_files = topLevelFiles [FsEntry.file "a.jpg" "b"] :=
  ⟨(put_file_top_level_only _).1 rfl,
   ((put_file_top_level_only [FsEntry.file "a.jpg" "b"]).2 _ rfl).1⟩

/-- C5 counterexample: re-running teach after a failure between the (committed)
metadata insert and embedding creation duplicates the ImageMetadata rows. -/
theorem teach_retry_duplicates_metadata :
    retryDB.imageMetadata =
      [metaRowFor "@S/M/Cat" (some "Cat") ⟨"img1.jpg", "bytes1"⟩,
       metaRowFor "@S/M/Cat" (some "Cat") ⟨"img1.jpg", "bytes1"⟩] ∧
    ¬ retryDB.imageMetadata.Nodup := ⟨rfl, by decide⟩



theorem add_model_idem (db : DB) (m : String) :
    add_model (add_model db m) m = add_model db m := by
  by_cases h : countModel db m = 0
  · have hcount : ¬ countModel (add_model db m) m = 0 := by
      rw [add_model, if_pos h]
      simp [countModel, List.filter_append]
    nth_rewrite 1 [add_model]
    rw [if_neg hcount]
  · have hdb : add_model db m = db := by rw [add_model, if_neg h]
    rw [hdb]
    exact hdb

theorem add_class_to_model_idem (db : DB) (m c : String) :
    add_class_to_model (add_class_to_model db m c) m c = add_class_to_model db m c := by
  by_cases h : countModelClass db m c = 0
  · have hcount : ¬ countModelClass (add_class_to_model db m c) m c = 0 := by
      have := countModelClass_add_class_to_model_pos db m c
      omega
    nth_rewrite 1 [add_class_to_model]
    rw [if_neg hcount]
  · have hdb : add_class_to_model db m c = db := by rw [add_class_to_model, if_neg h]
    rw [hdb]
    exact hdb

theorem add_class_embedding_idem (db : DB) (cid cid' c : String) :
    add_class_embedding (add_class_embedding db cid c) cid' c = add_class_embedding db cid c := by
  by_cases h : 0 < countClassEmbedding db c
  · have hdb : add_class_embedding db cid c = db := by rw [add_class_embedding, if_pos h]
    rw [hdb]
    rw [add_class_embedding, if_pos h]
  · have hpos : 0 < countClassEmbedding (add_class_embedding db cid c) c := by
      rw [add_class_embedding, if_neg h]
      simp [countClassEmbedding, List.filter_append]
    nth_rewrite 1 [add_class_embedding]
    rw [if_pos hpos]

theorem teach_workflow_empty_fail (m c : String) (files : List FileEntry) (stage : String) :
    teach_workflow emptyDB m c files stage true =
      DB.mk [m] [] (metadataRows files (stage ++ "/" ++ safeName m ++ "/" ++ safeName c) (some c)) [] := by
  have h1 : add_model emptyDB m = DB.mk [m] [] [] [] := rfl
  have h2 : get_next_class_id ([] : List String) = some (mkClassId 1) := rfl
  simp only [teach_workflow, h1, List.map_nil, h2, insert_metadata_no_failures]
  simp

theorem add_class_embedding_to_empty (a : List String) (mcs : List (String × String))
    (im : List MetaRow) (cid c : String) :
    add_class_embedding (DB.mk a mcs im []) cid c =
      DB.mk a mcs im [⟨cid, c, some (embedText768 "snowflake-arctic-embed-m" c)⟩] := by
  have hc : ¬ 0 < countClassEmbedding (DB.mk a mcs im []) c := by
    simp [countClassEmbedding]
  rw [add_class_embedding, if_neg hc]
  rfl

theorem add_class_to_model_to_empty (a : List String) (im : List MetaRow)
    (ce : List CERow) (m c : String) :
    add_class_to_model (DB.mk a [] im ce) m c = DB.mk a [(m, c)] im ce := by
  have hc : countModelClass (DB.mk a [] im ce) m c = 0 := by
    simp [countModelClass]
  rw [add_class_to_model, if_pos hc]
  rfl

theorem teach_workflow_again (m c : String) (files : List FileEntry) (stage : String)
    (meta : List MetaRow) :
    teach_workflow (DB.mk [m] [] meta []) m c files stage false =
      DB.mk [m] [(m, c)]
        (meta ++ metadataRows files (stage ++ "/" ++ safeName m ++ "/" ++ safeName c) (some c))
        [⟨mkClassId 1, c, some (embedText768 "snowflake-arctic-embed-m" c)⟩] := by
  have h0 : ¬ countModel (DB.mk [m] [] meta []) m = 0 := by
    simp [countModel]
  have h1 : add_model (DB.mk [m] [] meta []) m = DB.mk [m] [] meta [] := by
    rw [add_model, if_neg h0]
  have h2 : get_next_class_id ([] : List String) = some (mkClassId 1) := rfl
  simp only [teach_workflow, h1, List.map_nil, h2, insert_metadata_no_failures]
  rw [show ({ DB.mk [m] [] meta [] with
        imageMetadata := meta ++ metadataRows files
          (stage ++ "/" ++ safeName m ++ "/" ++ safeName c) (some c) } : DB)
      = DB.mk [m] []
          (meta ++ metadataRows files (stage ++ "/" ++ safeName m ++ "/" ++ safeName c) (some c))
          [] from rfl]
  rw [add_class_embedding_to_empty, add_class_to_model_to_empty]
  rfl

/-- C5 amended: model registration, the model-class mapping and embedding
creation are insert-if-absent and a retry after a failure between the
(committed) metadata insert and embedding creation converges to exactly one
ClassEmbedding row — but the metadata rows of the already-uploaded files are
inserted a second time. -/
theorem teach_retry_converges_amended :
    (∀ db m, add_model (add_model db m) m = add_model db m) ∧
    (∀ db m c, add_class_to_model (add_class_to_model db m c) m c = add_class_to_model db m c) ∧
    (∀ db cid cid' c,
      add_class_embedding (add_class_embedding db cid c) cid' c = add_class_embedding db cid c) ∧
    (∀ m c files stage,
      ((teach_workflow (teach_workflow emptyDB m c files stage true) m c files stage
          false).classEmbeddings.filter (fun ce => ce.className == c)).length = 1 ∧
      (teach_workflow (teach_workflow emptyDB m c files stage true) m c files stage
          false).imageMetadata =
        metadataRows files (stage ++ "/" ++ safeName m ++ "/" ++ safeName c) (some c) ++
          metadataRows files (stage ++ "/" ++ safeName m ++ "/" ++ safeName c) (some c)) := by
  refine ⟨add_model_idem, add_class_to_model_idem, add_class_embedding_idem, ?_⟩
  intro m c files stage
  rw [teach_workflow_empty_fail, teach_workflow_again]
  constructor
  · simp
  · rfl



/-- C4: teaching a (model, class) pair already present in the model-class
mapping fails fast with the duplicate-class error and performs no acquisition
and no upload; and any started (non-duplicate) teach on a well-formed store
registers the mapping, so the second identical attempt is a duplicate. -/
theorem teach_duplicate_fails_fast :
    (∀ db m c files stage, 0 < countModelClass db m c →
      teach db m c files stage = (.duplicateClass, [])) ∧
    (∀ (nums : List Nat) (db : DB) m c files stage db' acts,
      db.classEmbeddings.map CERow.classId = nums.map mkClassId →
      teach db m c files stage = (.started db', acts) →
      0 < countModelClass db' m c) := by
  constructor
  · intro db m c files stage h
    rw [teach, if_pos h]
  · intro nums db m c files stage db' acts hids hteach
    rw [teach] at hteach
    by_cases hdup : 0 < countModelClass db m c
    · rw [if_pos hdup] at hteach
      injection hteach with h1 h2
      cases h1
    · rw [if_neg hdup] at hteach
      injection hteach with h1 h2
      injection h1 with h1
      subst h1
      have hsc : get_next_class_id ((add_model db m).classEmbeddings.map CERow.classId)
          = some (mkClassId (nums.foldl Nat.max 0 + 1)) := by
        rw [add_model_classEmbeddings, hids]
        exact get_next_class_id_generated nums
      simp only [background_train, hsc, insert_metadata_no_failures]
      exact countModelClass_add_class_to_model_pos _ m c

theorem teach_duplicate_fails_fast_witness :
    teach dbDemo "M" "Cat" filesDemo "@S" = (.duplicateClass, []) ∧
    0 < countModelClass (background_train emptyDB "M" "Cat" filesDemo "@S" false) "M" "Cat" := by
  constructor
  · exact teach_duplicate_fails_fast.1 dbDemo "M" "Cat" filesDemo "@S" (by decide)
  · exact teach_duplicate_fails_fast.2 [] emptyDB "M" "Cat" filesDemo "@S" _ _ rfl rfl

/-- C6: metadata insertion is best-effort per row — a row whose rich insert
fails is retried with the reduced 3-column shape, the operation only fails
when some row fails both shapes, and on success the returned count equals the
number of files. -/
theorem insert_metadata_best_effort (richFails reducedFails : MetaRow → Bool)
    (db : DB) (files : List FileEntry) (stage_target : String) (caption : Option String) :
    (insert_image_metadata_from_local_dir richFails reducedFails db files stage_target caption
        = .error () ↔
      ∃ r ∈ metadataRows files stage_target caption,
        richFails r = true ∧ reducedFails r = true) ∧
    (∀ db' n,
      insert_image_metadata_from_local_dir richFails reducedFails db files stage_target caption
        = .ok (db', n) →
      n = files.length ∧
      db'.imageMetadata = db.imageMetadata ++
        (metadataRows files stage_target caption).map
          (fun r => if richFails r then reducedRow r else r)) := by
  rw [insert_image_metadata_from_local_dir]
  by_cases hfiles : files = []
  · subst hfiles
    rw [if_pos rfl]
    constructor
    · simp [metadataRows]
    · intro db' n h
      injection h with h
      injection h with h1 h2
      subst h1
      subst h2
      simp [metadataRows]
  · rw [if_neg hfiles]
    cases hrec : processMetaRows richFails reducedFails (metadataRows files stage_target caption) with
    | error e =>
      cases e
      constructor
      · constructor
        · intro _
          exact processMetaRows_error_iff.mp hrec
        · intro _
          rfl
      · intro db' n h
        simp [Except.map] at h
    | ok out =>
      constructor
      · constructor
        · intro h
          simp [Except.map] at h
        · intro hex
          have := processMetaRows_error_iff.mpr hex
          rw [hrec] at this
          simp at this
      · intro db' n h
        simp only [Except.map] at h
        injection h with h
        injection h with h1 h2
        subst h1
        subst h2
        refine ⟨by simp [metadataRows], ?_⟩
        simp [processMetaRows_ok hrec]

theorem insert_metadata_best_effort_witness :
    (1 : Nat) = ([⟨"a.jpg", "x"⟩] : List FileEntry).length ∧
    (DB.mk [] [] [reducedRow (metaRowFor "@S" none ⟨"a.jpg", "x"⟩)] []).imageMetadata =
      emptyDB.imageMetadata ++
        (metadataRows [⟨"a.jpg", "x"⟩] "@S" none).map
          (fun r => if (fun _ => true) r then reducedRow r else r) :=
  (insert_metadata_best_effort (fun _ => true) (fun _ => false) emptyDB
    [⟨"a.jpg", "x"⟩] "@S" none).2 _ 1 rfl




/-- C1: with no image-embedding function, the matcher returns the matched
record's caption through the three-tier ladder in source order — exact stage
path at confidence 1.0, else basename match at 0.95, else content-hash match
at 0.98 — one (caption, score) pair per successful tier. -/
theorem fallback_ladder_tiers (db : DB) (fn_names : List String) (hash_query_fails : Bool)
    (sim : CERow → ℚ) (stage_name_detect : String) (query : FileEntry) (model_name : Option String)
    (hfn : findImgFn fn_names = none) :
    (∀ r, db.imageMetadata.find?
        (fun x => x.filePath == stage_name_detect ++ "/" ++ query.name) = some r →
      r.caption ≠ "" →
      run_classification_on_uploaded db fn_names hash_query_fails sim stage_name_detect query
        model_name = .ok [(r.caption, 1.0)]) ∧
    (tierCaption db (fun x => x.filePath == stage_name_detect ++ "/" ++ query.name) = none →
      ∀ r, db.imageMetadata.find? (fun x => strEndsWith ("/" ++ query.name) x.filePath) = some r →
        r.caption ≠ "" →
        run_classification_on_uploaded db fn_names hash_query_fails sim stage_name_detect query
          model_name = .ok [(r.caption, 0.95)]) ∧
    (tierCaption db (fun x => x.filePath == stage_name_detect ++ "/" ++ query.name) = none →
      tierCaption db (fun x => strEndsWith ("/" ++ query.name) x.filePath) = none →
      hash_query_fails = false →
      ∀ r, db.imageMetadata.find? (fun x => x.fileHash == some (sha256Hex query.content)) = some r →
        r.caption ≠ "" →
        run_classification_on_uploaded db fn_names hash_query_fails sim stage_name_detect query
          model_name = .ok [(r.caption, 0.98)]) := by
  refine ⟨?_, ?_, ?_⟩
  · intro r hfind hcap
    have h1 := tierCaption_eq_some hfind hcap
    simp [run_classification_on_uploaded, hfn, h1]
  · intro ht1 r hfind hcap
    have h2 := tierCaption_eq_some hfind hcap
    simp [run_classification_on_uploaded, hfn, ht1, h2]
  · intro ht1 ht2 hq r hfind hcap
    have h3 := tierCaption_eq_some hfind hcap
    simp [run_classification_on_uploaded, hfn, ht1, ht2, hq, h3]

theorem fallback_ladder_tiers_witness :
    run_classification_on_uploaded dbDemo [] false (fun _ => 0) "@S/M/Cat" ⟨"img1.jpg", "x"⟩ none
      = .ok [("Cat", 1.0)] ∧
    run_classification_on_uploaded dbDemo [] false (fun _ => 0) "@D" ⟨"img1.jpg", "x"⟩ none
      = .ok [("Cat", 0.95)] ∧
    run_classification_on_uploaded dbDemo [] false (fun _ => 0) "@D" ⟨"other.jpg", "bytes1"⟩ none
      = .ok [("Cat", 0.98)] := by
  refine ⟨?_, ?_, ?_⟩
  · exact (fallback_ladder_tiers dbDemo [] false (fun _ => 0) "@S/M/Cat" ⟨"img1.jpg", "x"⟩
      none rfl).1 ⟨"img1", "@S/M/Cat/img1.jpg", "Cat", some (sha256Hex "bytes1")⟩ rfl (by decide)
  · exact (fallback_ladder_tiers dbDemo [] false (fun _ => 0) "@D" ⟨"img1.jpg", "x"⟩
      none rfl).2.1 rfl ⟨"img1", "@S/M/Cat/img1.jpg", "Cat", some (sha256Hex "bytes1")⟩ rfl
      (by decide)
  · exact (fallback_ladder_tiers dbDemo [] false (fun _ => 0) "@D" ⟨"other.jpg", "bytes1"⟩
      none rfl).2.2 rfl rfl rfl ⟨"img1", "@S/M/Cat/img1.jpg", "Cat", some (sha256Hex "bytes1")⟩
      rfl (by decide)

/-- C8: a failing content-hash tier (e.g. missing FILE_HASH column) never
propagates — the matcher falls through to the final no-match failure. -/
theorem hash_tier_error_not_propagated (db : DB) (fn_names : List String) (sim : CERow → ℚ)
    (stage_name_detect : String) (query : FileEntry) (model_name : Option String)
    (hfn : findImgFn fn_names = none)
    (ht1 : tierCaption db (fun x => x.filePath == stage_name_detect ++ "/" ++ query.name) = none)
    (ht2 : tierCaption db (fun x => strEndsWith ("/" ++ query.name) x.filePath) = none) :
    run_classification_on_uploaded db fn_names true sim stage_name_detect query model_name
      = .error (.noMatch fn_names) := by
  simp [run_classification_on_uploaded, hfn, ht1, ht2]

theorem hash_tier_error_not_propagated_witness :
    run_classification_on_uploaded dbDemo [] true (fun _ => 0) "@D" ⟨"other.jpg", "bytes1"⟩ none
      = .error (.noMatch []) :=
  hash_tier_error_not_propagated dbDemo [] (fun _ => 0) "@D" ⟨"other.jpg", "bytes1"⟩ none
    rfl rfl rfl

/-- C9: when the vector query executes but yields zero rows, classify fails
with the diagnostic error carrying the embedding-row counts instead of
returning an empty result. -/
theorem vector_zero_rows_diagnosed (db : DB) (fn_names : List String) (hash_query_fails : Bool)
    (sim : CERow → ℚ) (stage_name_detect : String) (query : FileEntry) (model_name : Option String)
    (f : String) (hfn : findImgFn fn_names = some f)
    (hempty : vectorCandidates db model_name = []) :
    run_classification_on_uploaded db fn_names hash_query_fails sim stage_name_detect query
      model_name = .error (.noRows db.classEmbeddings.length
        ((db.classEmbeddings.filter (fun ce => ce.textVector.isSome)).length)) := by
  simp [run_classification_on_uploaded, hfn, hempty]

theorem vector_zero_rows_diagnosed_witness :
    run_classification_on_uploaded dbNoJoin ["EMBED_IMAGE_1024"] false (fun _ => 0) "@D"
      ⟨"q.jpg", "x"⟩ (some "M") = .error (.noRows 1 1) :=
  vector_zero_rows_diagnosed dbNoJoin ["EMBED_IMAGE_1024"] false (fun _ => 0) "@D"
    ⟨"q.jpg", "x"⟩ (some "M") "EMBED_IMAGE_1024" rfl rfl

/-- C2 amended: with an image-embedding function the matcher returns at most 5
pairs in non-increasing (not necessarily strictly decreasing) similarity
order, and under a model filter every returned class is mapped to that model. -/
theorem classify_vector_top5 (db : DB) (fn_names : List String) (hash_query_fails : Bool)
    (sim : CERow → ℚ) (stage_name_detect : String) (query : FileEntry) (model_name : Option String)
    (f : String) (l : List (String × ℚ))
    (hfn : findImgFn fn_names = some f)
    (hok : run_classification_on_uploaded db fn_names hash_query_fails sim stage_name_detect query
      model_name = .ok l) :
    l.length ≤ 5 ∧ List.Pairwise (fun a b : String × ℚ => b.2 ≤ a.2) l ∧
    (∀ m, model_name = some m → ∀ p ∈ l, ∃ mc ∈ db.modelClasses, mc.1 = m ∧ mc.2 = p.1) := by
  simp only [run_classification_on_uploaded, hfn] at hok
  split at hok
  · cases hok
  · injection hok with hok
    subst hok
    refine ⟨List.length_take_le 5 _, ?_, ?_⟩
    · have hsorted : List.Pairwise (fun a b : String × ℚ => b.2 ≤ a.2)
          (((vectorCandidates db model_name).map (fun ce => (ce.className, sim ce))).insertionSort
            (fun a b => b.2 ≤ a.2)) :=
        List.sorted_insertionSort (fun a b : String × ℚ => b.2 ≤ a.2) _
      exact List.Pairwise.sublist (List.take_sublist 5 _) hsorted
    · intro m hm p hp
      subst hm
      have hp1 := List.mem_of_mem_take hp
      have hp2 := (List.perm_insertionSort
        (fun a b : String × ℚ => b.2 ≤ a.2) _).mem_iff.mp hp1
      obtain ⟨ce, hce, rfl⟩ := List.mem_map.mp hp2
      simp only [vectorCandidates] at hce
      rw [List.mem_flatMap] at hce
      obtain ⟨ce', hce', hmem⟩ := hce
      rw [List.mem_map] at hmem
      obtain ⟨mc, hmc, hceq⟩ := hmem
      cases hceq
      rw [List.mem_filter] at hmc
      obtain ⟨hmcmem, hcond⟩ := hmc
      rw [Bool.and_eq_true, beq_iff_eq, beq_iff_eq] at hcond
      exact ⟨mc, hmcmem, hcond.2, hcond.1⟩

theorem classify_vector_top5_witness :
    ([("A", (0 : ℚ)), ("B", 0)] : List (String × ℚ)).length ≤ 5 ∧
    List.Pairwise (fun a b : String × ℚ => b.2 ≤ a.2) [("A", (0 : ℚ)), ("B", 0)] :=
  ⟨(classify_vector_top5 dbTie ["EMBED_IMAGE_1024"] false (fun _ => 0) "@D" ⟨"q.jpg", "x"⟩
      (some "M") "EMBED_IMAGE_1024" [("A", (0 : ℚ)), ("B", 0)] rfl rfl).1,
   (classify_vector_top5 dbTie ["EMBED_IMAGE_1024"] false (fun _ => 0) "@D" ⟨"q.jpg", "x"⟩
      (some "M") "EMBED_IMAGE_1024" [("A", (0 : ℚ)), ("B", 0)] rfl rfl).2.1⟩

/-- C2 counterexample: two classes with equal similarity are both returned, so
the result is not strictly descending in score. -/
theorem classify_tie_not_strictly_descending :
    run_classification_on_uploaded dbTie ["EMBED_IMAGE_1024"] false (fun _ => 0) "@D"
      ⟨"q.jpg", "x"⟩ none = .ok [("A", 0), ("B", 0)] ∧
    ¬ List.Pairwise (fun a b : String × ℚ => b.2 < a.2) [("A", (0 : ℚ)), ("B", 0)] := by
  constructor
  · rfl
  · intro h
    have hrel := List.rel_of_pairwise_cons h (List.mem_cons_self _ _)
    exact absurd hrel (lt_irrefl (0 : ℚ))


end CortexVision
